import Mathlib

/-!
Shallow embedding of the path-safety and file-action layer of
`src/actions.py` (functions `resolve_path`, `is_safe_path`, `find_files`,
`move_files`, `delete_files`), together with proofs of the testable
properties stated in the specification.

Modelling conventions (POSIX runtime, as the repository is developed and
run on a POSIX system):

* An absolute filesystem path is represented by its list of components
  (`PathComps`); the path `/home/user/x` is `["home", "user", "x"]`.
* `pathlib.Path.resolve()` on an absolute path (symlink chasing plus
  `.`/`..` collapsing, performed by the OS) is an abstract function
  `OsCtx.resolveAbs`; it returns `Except.error e` when the underlying
  CPython call raises an exception with message `e` (for example
  `ValueError: embedded null byte` for paths containing a NUL byte).
* `Path.home().resolve()` (the function `get_home_dir`) is the fixed
  value `OsCtx.home`.
* `Path(os.path.expandvars(d)).resolve()` applied to the constant
  denylist entries `SYSTEM_DIRS` is the abstract `OsCtx.expandResolve`
  (resolution of the eight fixed strings in a fixed environment).
* A Python string holding a path is represented by its absoluteness flag
  (leading slash) and its components; the empty string is
  `PathInput.str false []`, the only falsy string.
* Python `str` values appearing in messages are kept as Lean `String`s;
  f-string results that only interpolate computed numbers and paths are
  represented by constructors carrying those computed values.
-/

/-- Components of an absolute POSIX path: `/home/user/x` is `["home","user","x"]`. -/
abbrev PathComps := List String

/-- Computation in the Python runtime: `Except.error e` models an uncaught
Python exception with message `e`. -/
abbrev Py (α : Type) := Except String α

/-- The fixed OS environment the functions of `actions.py` run in. -/
structure OsCtx where
  /-- The value of `get_home_dir()`, i.e. `Path.home().resolve()`. -/
  home : PathComps
  /-- The outcome of `Path(p).resolve()` for an absolute path with components `p`;
  an `error` models a raised exception (e.g. `ValueError` on NUL bytes). -/
  resolveAbs : PathComps → Py PathComps
  /-- The value of `Path(os.path.expandvars(d)).resolve()` for a denylist entry `d`. -/
  expandResolve : String → PathComps

/-- The `SYSTEM_DIRS` blocklist constant of `src/actions.py`, verbatim. -/
def SYSTEM_DIRS : List String :=
  ["C:\\Windows",
   "C:\\Program Files",
   "C:\\Program Files (x86)",
   "/bin",
   "/usr",
   "/etc",
   "C:\\$Recycle.Bin",
   "C:\\System Volume Information"]

/-- A path argument as passed to `resolve_path`: Python `None`, or a string
(`isAbs` = leading `/`; the empty string is `str false []`). -/
inductive PathInput where
  | absent
  | str (isAbs : Bool) (comps : List String)
deriving DecidableEq

/-- Python truthiness of a `resolve_path` argument: `None` and `""` are falsy. -/
def PathInput.truthy : PathInput → Bool
  | .absent => false
  | .str isAbs comps => isAbs || !comps.isEmpty

/-- The function `resolve_path` of `src/actions.py` (lines 24-50):
falsy input resolves to home; an absolute string is resolved directly;
a relative string is joined onto home and resolved. -/
def resolve_path (ctx : OsCtx) (path_str : PathInput) : Py PathComps :=
  if !path_str.truthy then
    Except.ok ctx.home
  else
    match path_str with
    | .absent => Except.ok ctx.home
    | .str isAbs comps =>
      if isAbs then ctx.resolveAbs comps
      else ctx.resolveAbs (ctx.home ++ comps)

/-- An argument of `is_safe_path`: Python `None`, a string, or a
`pathlib.Path` object (at every call site in `actions.py` such objects are
outputs of `resolve_path`/`os.walk`, hence absolute; `path comps` is the
absolute `Path` with components `comps`; `Path` objects are always truthy). -/
inductive SafeInput where
  | absent
  | str (isAbs : Bool) (comps : List String)
  | path (comps : PathComps)
deriving DecidableEq

/-- Python truthiness of an `is_safe_path` argument. -/
def SafeInput.truthy : SafeInput → Bool
  | .absent => false
  | .str isAbs comps => isAbs || !comps.isEmpty
  | .path _ => true

/-- View a `resolve_path` argument as an `is_safe_path` argument
(`find_files` passes its `source_path` argument to both). -/
def PathInput.toSafeInput : PathInput → SafeInput
  | .absent => .absent
  | .str isAbs comps => .str isAbs comps

/-- The resolution step performed inside `is_safe_path` (lines 61-64):
`path_str.resolve()` for a `Path` object, `resolve_path(path_str)` for a
string.  For falsy input `is_safe_path` returns early and resolves nothing;
the canonical resolution of such input per the Resolver is home. -/
def gateResolution (ctx : OsCtx) : SafeInput → Py PathComps
  | .absent => Except.ok ctx.home
  | .str isAbs comps => resolve_path ctx (.str isAbs comps)
  | .path comps => ctx.resolveAbs comps

/-- Characters of `str(p)` for an absolute path that is known nonempty as a
component list: each component contributes a slash and its characters. -/
def renderFrom : PathComps → List Char
  | [] => []
  | c :: cs => '/' :: c.data ++ renderFrom cs

/-- Characters of `str(p)` for an absolute path `p`: the root alone prints
as `/`, otherwise one slash before each component. -/
def render (p : PathComps) : List Char :=
  if p.isEmpty then ['/'] else renderFrom p

/-- Python `str.lower()` on a character list. -/
def lowerChars (s : List Char) : List Char := s.map Char.toLower

/-- The function `is_safe_path` of `src/actions.py` (lines 52-84):
falsy input is allowed outright; otherwise the input is resolved (an
exception during resolution yields `False`), the resolved path must be
inside home (`Path.is_relative_to`, i.e. component-wise self-or-ancestor),
and must not match any `SYSTEM_DIRS` entry under the lowercased
string-`startswith` test of lines 75-79. -/
def is_safe_path (ctx : OsCtx) (path_str : SafeInput) : Bool :=
  if !path_str.truthy then
    true
  else
    match gateResolution ctx path_str with
    | .error _ => false
    | .ok path =>
      if !ctx.home.isPrefixOf path then
        false
      else if SYSTEM_DIRS.any (fun sys_dir =>
          (lowerChars (render (ctx.expandResolve sys_dir))).isPrefixOf
            (lowerChars (render path))) then
        false
      else
        true

example : resolve_path ⟨["home", "u"], fun p => Except.ok p, fun _ => ["etc"]⟩
    (.str false ["Downloads"]) = Except.ok ["home", "u", "Downloads"] := rfl

example : is_safe_path ⟨["home", "u"], fun p => Except.ok p, fun _ => ["etc"]⟩
    (.path ["home", "u", "Downloads"]) = true := by decide

example : is_safe_path ⟨["home", "u"], fun p => Except.ok p, fun _ => ["etc"]⟩
    (.path ["etc", "passwd"]) = false := by decide

example : is_safe_path ⟨["etc"], fun p => Except.ok p, fun _ => ["etc"]⟩
    (.path ["etc", "passwd"]) = false := by decide

/-! ## The file enumerator (`find_files`, lines 117-156) -/

mutual
/-- A directory tree as `os.walk` traverses it: named subdirectories in
listing order and the file names of the directory itself. -/
inductive DirTree : Type where
  | node (subdirs : DirList) (files : List String)

/-- The ordered subdirectory list of a `DirTree` node. -/
inductive DirList : Type where
  | nil
  | cons (name : String) (tree : DirTree) (rest : DirList)
end

/-- The filesystem as seen by `find_files`: existence of the start path and
the directory tree `os.walk` enumerates below a path. -/
structure Fs where
  /-- The truth value of `os.path.exists(p)`. -/
  pathExists : PathComps → Bool
  /-- The directory tree rooted at `p` that `os.walk(p)` traverses. -/
  walkTree : PathComps → DirTree

mutual
/-- The `os.walk` loop of `find_files` restricted to its visiting order and
pruning (lines 137-142): a top-down walk that, at a directory failing
`safe`, clears `dirnames` and `continue`s, so the directory's files are not
scanned and its subtree is never entered.  Yields the `(root, filenames)`
pairs of the directories whose files are scanned, in visiting order. -/
def pruneWalk (safe : PathComps → Bool) (root : PathComps) :
    DirTree → List (PathComps × List String)
  | .node subdirs files =>
    if safe root then (root, files) :: pruneWalkDirs safe root subdirs
    else []

/-- The walk `pruneWalk` over an ordered subdirectory list. -/
def pruneWalkDirs (safe : PathComps → Bool) (root : PathComps) :
    DirList → List (PathComps × List String)
  | .nil => []
  | .cons name tree rest =>
    pruneWalk safe (root ++ [name]) tree ++ pruneWalkDirs safe root rest
end

/-- The per-filename test of lines 144-151: when `file_type` is truthy
(`if file_type:`), keep `filename` iff
`filename.lower().endswith("." + file_type.lower())`; otherwise keep every
filename. -/
def matchFile (file_type : Option String) (filename : String) : Bool :=
  match file_type with
  | Option.none => true
  | some ft =>
    if ft = "" then true
    else ('.' :: lowerChars ft.data).isSuffixOf (lowerChars filename.data)

/-- The inner `for filename in filenames` loop of lines 144-154: append the
joined path of each matching filename, incrementing `count`, and stop
(returning `results` at once) as soon as `count >= max_count`; the cap test
runs after every filename, on the updated count, so the two cases of the
conditional append are inlined here.  Returns the accumulated results, the
count, and whether the early `return` fired. -/
def addFiles (file_type : Option String) (max_count : Nat) (root : PathComps) :
    List String → List PathComps → Nat → List PathComps × Nat × Bool
  | [], results, count => (results, count, false)
  | filename :: rest, results, count =>
    if matchFile file_type filename then
      if max_count ≤ count + 1 then (results ++ [root ++ [filename]], count + 1, true)
      else addFiles file_type max_count root rest (results ++ [root ++ [filename]]) (count + 1)
    else
      if max_count ≤ count then (results, count, true)
      else addFiles file_type max_count root rest results count

/-- The outer `for root, dirnames, filenames in os.walk(...)` loop of lines
137-156 applied to the visited `(root, filenames)` pairs: scan each
directory's files with `addFiles`, propagating the early `return`. -/
def collect (file_type : Option String) (max_count : Nat) :
    List (PathComps × List String) → List PathComps → Nat → List PathComps
  | [], results, _ => results
  | (root, files) :: rest, results, count =>
    match addFiles file_type max_count root files results count with
    | (results', count', stopped) =>
      if stopped then results' else collect file_type max_count rest results' count'

/-- The error strings `find_files` can return (lines 125 and 130). -/
inductive FindErr where
  /-- The string `f"Error: Access to '{start_dir}' is RESTRICTED."` -/
  | restricted (start_dir : PathComps)
  /-- The string `f"Error: Source path '{start_dir}' does not exist."` -/
  | notFound (start_dir : PathComps)
deriving DecidableEq

/-- The `max_count = 50` constant of line 135. -/
def MAX_COUNT : Nat := 50

/-- The function `find_files` of `src/actions.py` (lines 117-156): resolve
the source (an exception propagates), return the RESTRICTED error only when
both the original argument and the resolved start directory fail the gate,
error when the start directory does not exist, and otherwise walk the tree,
pruning directories that fail the gate and collecting at most `max_count`
matching file paths. -/
def find_files (ctx : OsCtx) (fs : Fs) (file_type : Option String)
    (source_path : PathInput) : Py (FindErr ⊕ List PathComps) :=
  match resolve_path ctx source_path with
  | .error e => Except.error e
  | .ok start_dir =>
    if !is_safe_path ctx source_path.toSafeInput &&
       !is_safe_path ctx (.path start_dir) then
      Except.ok (.inl (.restricted start_dir))
    else if !fs.pathExists start_dir then
      Except.ok (.inl (.notFound start_dir))
    else
      Except.ok (.inr (collect file_type MAX_COUNT
        (pruneWalk (fun root => is_safe_path ctx (.str true root)) start_dir
          (fs.walkTree start_dir))
        [] 0))

/-! ## The batch actions (`move_files` lines 158-194, `delete_files` lines 196-222) -/

/-- Outcomes of the mutating OS calls the batch actions make; an `error`
models the raised exception's message. -/
structure MutFs where
  /-- The outcome of `os.remove(f)` for the file with components `f`. -/
  removeResult : PathComps → Except String Unit
  /-- The outcome of `shutil.move(f, dest_dir)`. -/
  moveResult : PathComps → PathComps → Except String Unit
  /-- The outcome of `os.makedirs(dest_dir)`. -/
  makedirsResult : PathComps → Except String Unit

/-- A filesystem mutation attempted by a batch action (issuing the OS call,
whether or not it succeeds). -/
inductive MutOp where
  | remove (file : PathComps)
  | move (file : PathComps) (dest_dir : PathComps)
  | makedirs (dir : PathComps)
deriving DecidableEq

/-- Shorthand for the per-file re-check `is_safe_path(file_path)` of lines
185 and 213 (`file_path` is an absolute path string produced by
`os.path.join`). -/
def safeFile (ctx : OsCtx) (file_path : PathComps) : Bool :=
  is_safe_path ctx (.str true file_path)

/-- The per-file loop of `delete_files` (lines 212-220): skip files failing
the re-check with `continue`, otherwise call `os.remove`, counting a
success and accumulating `f"Failed to delete {file_path}: {e}"` (kept as
the pair `(file_path, e)`) on failure.  Also returns the list of attempted
mutations. -/
def deleteLoop (ctx : OsCtx) (mfs : MutFs) :
    List PathComps → Nat → List (PathComps × String) → List MutOp →
    Nat × List (PathComps × String) × List MutOp
  | [], deleted_count, errors, trace => (deleted_count, errors, trace)
  | file_path :: rest, deleted_count, errors, trace =>
    if !safeFile ctx file_path then
      deleteLoop ctx mfs rest deleted_count errors trace
    else
      match mfs.removeResult file_path with
      | .ok _ =>
        deleteLoop ctx mfs rest (deleted_count + 1) errors
          (trace ++ [.remove file_path])
      | .error e =>
        deleteLoop ctx mfs rest deleted_count (errors ++ [(file_path, e)])
          (trace ++ [.remove file_path])

/-- The values `delete_files` can return. -/
inductive DeleteRet where
  /-- The string of line 203, beginning with the words Error colon and naming the path as outside the user home. -/
  | blocked
  /-- A `find_files` error string passed through (lines 209-210). -/
  | findErr (e : FindErr)
  /-- The string `f"Deleted {deleted_count} files from {src_dir}. Errors: {len(errors)}"`
  (line 222), carrying the interpolated values. -/
  | done (deleted_count : Nat) (errorCount : Nat) (src_dir : PathComps)
deriving DecidableEq

/-- The function `delete_files` of `src/actions.py` (lines 196-222),
returning its result together with the list of attempted filesystem
mutations (empty when it errors out before the loop). -/
def delete_files (ctx : OsCtx) (fs : Fs) (mfs : MutFs)
    (file_type : Option String) (source_path : PathInput) :
    Py DeleteRet × List MutOp :=
  match resolve_path ctx source_path with
  | .error e => (Except.error e, [])
  | .ok src_dir =>
    if !is_safe_path ctx (.path src_dir) then
      (Except.ok .blocked, [])
    else
      match find_files ctx fs file_type source_path with
      | .error e => (Except.error e, [])
      | .ok (.inl msg) => (Except.ok (.findErr msg), [])
      | .ok (.inr files_to_delete) =>
        match deleteLoop ctx mfs files_to_delete 0 [] [] with
        | (deleted_count, errors, trace) =>
          (Except.ok (.done deleted_count errors.length src_dir), trace)

/-- The per-file loop of `move_files` (lines 184-192), with the same shape
as `deleteLoop` but calling `shutil.move(file_path, dest_dir)`. -/
def moveLoop (ctx : OsCtx) (mfs : MutFs) (dest_dir : PathComps) :
    List PathComps → Nat → List (PathComps × String) → List MutOp →
    Nat × List (PathComps × String) × List MutOp
  | [], moved_count, errors, trace => (moved_count, errors, trace)
  | file_path :: rest, moved_count, errors, trace =>
    if !safeFile ctx file_path then
      moveLoop ctx mfs dest_dir rest moved_count errors trace
    else
      match mfs.moveResult file_path dest_dir with
      | .ok _ =>
        moveLoop ctx mfs dest_dir rest (moved_count + 1) errors
          (trace ++ [.move file_path dest_dir])
      | .error e =>
        moveLoop ctx mfs dest_dir rest moved_count (errors ++ [(file_path, e)])
          (trace ++ [.move file_path dest_dir])

/-- The values `move_files` can return. -/
inductive MoveRet where
  /-- The string `"Error: Destination path required for move."` (line 163) -/
  | destRequired
  /-- The string of line 169, beginning with the words Error colon and naming the path as outside the user home. -/
  | blocked
  /-- The string `f"Error creating destination: {e}"` (line 175). -/
  | mkdirErr (e : String)
  /-- A `find_files` error string passed through (lines 181-182). -/
  | findErr (e : FindErr)
  /-- The string `f"Moved {moved_count} files to {dest_dir}. Errors: {len(errors)}"`
  (line 194), carrying the interpolated values. -/
  | done (moved_count : Nat) (errorCount : Nat) (dest_dir : PathComps)
deriving DecidableEq

/-- The function `move_files` of `src/actions.py` (lines 158-194),
returning its result together with the list of attempted filesystem
mutations (`os.makedirs` on a missing destination included). -/
def move_files (ctx : OsCtx) (fs : Fs) (mfs : MutFs)
    (file_type : Option String) (destination_path source_path : PathInput) :
    Py MoveRet × List MutOp :=
  if !destination_path.truthy then
    (Except.ok .destRequired, [])
  else
    match resolve_path ctx source_path with
    | .error e => (Except.error e, [])
    | .ok src_dir =>
      match resolve_path ctx destination_path with
      | .error e => (Except.error e, [])
      | .ok dest_dir =>
        if !is_safe_path ctx (.path src_dir) ||
           !is_safe_path ctx (.path dest_dir) then
          (Except.ok .blocked, [])
        else
          let (mkTrace, mkErr) : List MutOp × Option String :=
            if !fs.pathExists dest_dir then
              match mfs.makedirsResult dest_dir with
              | .ok _ => ([.makedirs dest_dir], Option.none)
              | .error e => ([.makedirs dest_dir], some e)
            else ([], Option.none)
          match mkErr with
          | some e => (Except.ok (.mkdirErr e), mkTrace)
          | Option.none =>
            match find_files ctx fs file_type source_path with
            | .error e => (Except.error e, mkTrace)
            | .ok (.inl msg) => (Except.ok (.findErr msg), mkTrace)
            | .ok (.inr files_to_move) =>
              match moveLoop ctx mfs dest_dir files_to_move 0 [] mkTrace with
              | (moved_count, errors, trace) =>
                (Except.ok (.done moved_count errors.length dest_dir), trace)

/-! ## Helper lemmas -/

theorem isPrefixOf_true_iff {α : Type} [BEq α] [LawfulBEq α] (l₁ l₂ : List α) :
    l₁.isPrefixOf l₂ = true ↔ l₁ <+: l₂ :=
  List.isPrefixOf_iff_prefix

theorem renderFrom_append (p q : PathComps) :
    renderFrom (p ++ q) = renderFrom p ++ renderFrom q := by
  induction p with
  | nil => simp [renderFrom]
  | cons c cs ih =>
    show '/' :: c.data ++ renderFrom (cs ++ q) = ('/' :: c.data ++ renderFrom cs) ++ renderFrom q
    rw [ih]
    simp

theorem lowerChars_append (s t : List Char) :
    lowerChars (s ++ t) = lowerChars s ++ lowerChars t := by
  simp [lowerChars]

/-- Component-wise nesting implies the lowercased `startswith` test of
lines 75-79: if `d` is a component prefix of `p`, then `str(p).lower()`
starts with `str(d).lower()`. -/
theorem lower_render_of_nested (d p : PathComps) (h : d <+: p) :
    (lowerChars (render d)).isPrefixOf (lowerChars (render p)) = true := by
  rw [isPrefixOf_true_iff]
  cases d with
  | nil =>
    cases p with
    | nil => exact List.prefix_refl _
    | cons c cs =>
      refine ⟨lowerChars (c.data ++ renderFrom cs), ?_⟩
      have h1 : Char.toLower '/' = '/' := by decide
      simp [render, renderFrom, lowerChars, h1]
  | cons c cs =>
    obtain ⟨t, rfl⟩ := h
    have h1 : render ((c :: cs) ++ t) = renderFrom (c :: cs) ++ renderFrom t := by
      rw [← renderFrom_append]
      simp [render]
    have h2 : render (c :: cs) = renderFrom (c :: cs) := by simp [render]
    rw [h1, h2, lowerChars_append]
    exact List.prefix_append _ _

theorem length_filter_add_length_not {α : Type} (p : α → Bool) (l : List α) :
    (l.filter p).length + (l.filter (fun a => !p a)).length = l.length := by
  induction l with
  | nil => simp
  | cons a l ih =>
    by_cases h : p a <;> simp [List.filter_cons, h, ← ih] <;> omega

/-! ## Characterization of the enumerator -/

/-- The matching file paths contributed by one visited `(root, filenames)`
pair: the matching filenames, each joined onto the root. -/
def matchedNode (file_type : Option String) (rf : PathComps × List String) :
    List PathComps :=
  (rf.2.filter (matchFile file_type)).map (fun name => rf.1 ++ [name])

/-- All matching file paths of a visited pair list, in visiting order. -/
def matchedOf (file_type : Option String)
    (pairs : List (PathComps × List String)) : List PathComps :=
  pairs.flatMap (matchedNode file_type)

theorem matchedOf_nil (ft : Option String) : matchedOf ft [] = [] := rfl

theorem matchedOf_cons (ft : Option String) (rf : PathComps × List String)
    (rest : List (PathComps × List String)) :
    matchedOf ft (rf :: rest) = matchedNode ft rf ++ matchedOf ft rest := by
  simp [matchedOf]

theorem matchedOf_append (ft : Option String)
    (a b : List (PathComps × List String)) :
    matchedOf ft (a ++ b) = matchedOf ft a ++ matchedOf ft b := by
  simp [matchedOf]

/-- Exact behaviour of the inner filename loop: starting below the cap, it
appends the matching paths until the cap is reached, reports the capped
count, and reports whether the early `return` fired. -/
theorem addFiles_spec (file_type : Option String) (max_count : Nat)
    (root : PathComps) (files : List String) :
    ∀ (results : List PathComps) (count : Nat), count < max_count →
    addFiles file_type max_count root files results count =
      (results ++ (matchedNode file_type (root, files)).take (max_count - count),
       min (count + (matchedNode file_type (root, files)).length) max_count,
       decide (max_count ≤ count + (matchedNode file_type (root, files)).length)) := by
  induction files with
  | nil =>
    intro results count h
    have h0 : matchedNode file_type (root, ([] : List String)) = [] := rfl
    rw [show addFiles file_type max_count root [] results count =
      (results, count, false) from rfl, h0]
    refine congrArg₂ Prod.mk ?_ (congrArg₂ Prod.mk ?_ ?_)
    · simp
    · simp only [List.length_nil]
      omega
    · simp only [List.length_nil, Nat.add_zero]
      exact (decide_eq_false (by omega)).symm
  | cons name rest ih =>
    intro results count h
    have e1 : addFiles file_type max_count root (name :: rest) results count =
        if matchFile file_type name then
          if max_count ≤ count + 1 then (results ++ [root ++ [name]], count + 1, true)
          else addFiles file_type max_count root rest (results ++ [root ++ [name]]) (count + 1)
        else
          if max_count ≤ count then (results, count, true)
          else addFiles file_type max_count root rest results count := rfl
    by_cases hm : matchFile file_type name = true
    · have hnode : matchedNode file_type (root, name :: rest) =
          (root ++ [name]) :: matchedNode file_type (root, rest) := by
        simp [matchedNode, List.filter_cons, hm]
      rw [e1, if_pos hm, hnode]
      by_cases hstop : max_count ≤ count + 1
      · rw [if_pos hstop]
        refine congrArg₂ Prod.mk ?_ (congrArg₂ Prod.mk ?_ ?_)
        · have ht : max_count - count = 1 := by omega
          rw [ht]
          rfl
        · simp only [List.length_cons]
          omega
        · simp only [List.length_cons]
          exact (decide_eq_true (by omega)).symm
      · rw [if_neg hstop, ih _ _ (by omega)]
        refine congrArg₂ Prod.mk ?_ (congrArg₂ Prod.mk ?_ ?_)
        · have ht : max_count - count = (max_count - (count + 1)) + 1 := by omega
          rw [ht, List.take_succ_cons, List.append_assoc, List.singleton_append]
        · simp only [List.length_cons]
          omega
        · simp only [List.length_cons]
          have harith : count + 1 + (matchedNode file_type (root, rest)).length =
              count + ((matchedNode file_type (root, rest)).length + 1) := by omega
          rw [harith]
    · have hmf : matchFile file_type name = false := by
        revert hm
        cases matchFile file_type name <;> simp
      have hnode : matchedNode file_type (root, name :: rest) =
          matchedNode file_type (root, rest) := by
        simp [matchedNode, List.filter_cons, hmf]
      rw [e1, if_neg hm, if_neg (by omega : ¬ max_count ≤ count), hnode]
      exact ih _ _ h

/-- Exact behaviour of the `os.walk` loop on the visited pairs: starting
below the cap, the accumulated results are extended by the matching paths
truncated to the remaining capacity. -/
theorem collect_spec (file_type : Option String) (max_count : Nat)
    (pairs : List (PathComps × List String)) :
    ∀ (results : List PathComps) (count : Nat), count < max_count →
    collect file_type max_count pairs results count =
      results ++ (matchedOf file_type pairs).take (max_count - count) := by
  induction pairs with
  | nil =>
    intro results count h
    simp [collect, matchedOf]
  | cons rf rest ih =>
    intro results count h
    obtain ⟨root, files⟩ := rf
    rw [show collect file_type max_count ((root, files) :: rest) results count =
      (match addFiles file_type max_count root files results count with
       | (results', count', stopped) =>
         if stopped then results'
         else collect file_type max_count rest results' count') from rfl]
    rw [addFiles_spec file_type max_count root files results count h]
    rw [matchedOf_cons]
    by_cases hstop : max_count ≤ count + (matchedNode file_type (root, files)).length
    · show (if (decide (max_count ≤ count + (matchedNode file_type (root, files)).length))
          = true then _ else _) = _
      rw [decide_eq_true hstop, if_pos rfl]
      rw [List.take_append_eq_append_take]
      have h1 : max_count - count - (matchedNode file_type (root, files)).length = 0 := by
        omega
      rw [h1]
      simp
    · have hlt : count + (matchedNode file_type (root, files)).length < max_count := by
        omega
      show (if (decide (max_count ≤ count + (matchedNode file_type (root, files)).length))
          = true then _ else _) = _
      rw [decide_eq_false hstop, if_neg (by simp)]
      have hmin : min (count + (matchedNode file_type (root, files)).length) max_count =
          count + (matchedNode file_type (root, files)).length := by omega
      have htake : (matchedNode file_type (root, files)).take (max_count - count) =
          matchedNode file_type (root, files) :=
        List.take_of_length_le (by omega)
      rw [hmin, ih _ _ hlt, List.take_append_eq_append_take, htake]
      have h1 : (matchedOf file_type rest).take (max_count - (count +
          (matchedNode file_type (root, files)).length)) =
          (matchedOf file_type rest).take (max_count - count -
            (matchedNode file_type (root, files)).length) := by
        congr 1
        omega
      rw [h1, List.append_assoc]

/-- Behaviour of `find_files` under its normal preconditions (source resolves, the gate
admits the source or the resolved start directory, the start directory
exists): the result is the matching-path list of the pruned walk, truncated
to the cap. -/
theorem find_files_walk (ctx : OsCtx) (fs : Fs) (file_type : Option String)
    (source_path : PathInput) (start_dir : PathComps)
    (hres : resolve_path ctx source_path = Except.ok start_dir)
    (hsafe : is_safe_path ctx source_path.toSafeInput = true ∨
      is_safe_path ctx (.path start_dir) = true)
    (hex : fs.pathExists start_dir = true) :
    find_files ctx fs file_type source_path = Except.ok (.inr
      ((matchedOf file_type (pruneWalk (fun root => is_safe_path ctx (.str true root))
        start_dir (fs.walkTree start_dir))).take MAX_COUNT)) := by
  have hc := collect_spec file_type MAX_COUNT
    (pruneWalk (fun root => is_safe_path ctx (.str true root)) start_dir
      (fs.walkTree start_dir)) [] 0 (by decide)
  rw [List.nil_append, Nat.sub_zero] at hc
  rcases hsafe with h | h <;>
    simp [find_files, hres, h, hex, hc]

mutual
/-- Every directory of the tree at `root` (itself included) passes `safe`:
the situation with no symlinked or denylisted subdirectory, in which the
walk of `find_files` prunes nothing. -/
def allSafeTree (safe : PathComps → Bool) (root : PathComps) : DirTree → Bool
  | .node subdirs _ => safe root && allSafeDirs safe root subdirs

/-- The predicate `allSafeTree` over an ordered subdirectory list. -/
def allSafeDirs (safe : PathComps → Bool) (root : PathComps) : DirList → Bool
  | .nil => true
  | .cons name tree rest =>
    allSafeTree safe (root ++ [name]) tree && allSafeDirs safe root rest
end

mutual
/-- The number of files in the whole tree that match the filter. -/
def treeMatchCount (file_type : Option String) : DirTree → Nat
  | .node subdirs files =>
    (files.filter (matchFile file_type)).length + dirsMatchCount file_type subdirs

/-- The count `treeMatchCount` over an ordered subdirectory list. -/
def dirsMatchCount (file_type : Option String) : DirList → Nat
  | .nil => 0
  | .cons _ tree rest => treeMatchCount file_type tree + dirsMatchCount file_type rest
end

mutual
/-- When nothing is pruned, the walk encounters every matching file of the
tree. -/
theorem matched_pruneWalk (safe : PathComps → Bool) (file_type : Option String)
    (root : PathComps) (t : DirTree) (h : allSafeTree safe root t = true) :
    (matchedOf file_type (pruneWalk safe root t)).length =
      treeMatchCount file_type t := by
  cases t with
  | node subdirs files =>
    have h' : (safe root && allSafeDirs safe root subdirs) = true := h
    simp only [Bool.and_eq_true] at h'
    have hs : safe root = true := h'.1
    have hd : allSafeDirs safe root subdirs = true := h'.2
    rw [show pruneWalk safe root (.node subdirs files) =
      (if safe root = true then (root, files) :: pruneWalkDirs safe root subdirs
       else []) from rfl]
    rw [if_pos hs, matchedOf_cons, List.length_append]
    rw [show treeMatchCount file_type (.node subdirs files) =
      (files.filter (matchFile file_type)).length +
        dirsMatchCount file_type subdirs from rfl]
    rw [matched_pruneWalkDirs safe file_type root subdirs hd]
    have hlen : (matchedNode file_type (root, files)).length =
        (files.filter (matchFile file_type)).length := by
      simp [matchedNode]
    rw [hlen]

/-- Lemma `matched_pruneWalk` over an ordered subdirectory list. -/
theorem matched_pruneWalkDirs (safe : PathComps → Bool) (file_type : Option String)
    (root : PathComps) (ds : DirList) (h : allSafeDirs safe root ds = true) :
    (matchedOf file_type (pruneWalkDirs safe root ds)).length =
      dirsMatchCount file_type ds := by
  cases ds with
  | nil => rfl
  | cons name tree rest =>
    have h' : (allSafeTree safe (root ++ [name]) tree &&
        allSafeDirs safe root rest) = true := h
    simp only [Bool.and_eq_true] at h'
    have h1 : allSafeTree safe (root ++ [name]) tree = true := h'.1
    have h2 : allSafeDirs safe root rest = true := h'.2
    rw [show pruneWalkDirs safe root (.cons name tree rest) =
      pruneWalk safe (root ++ [name]) tree ++ pruneWalkDirs safe root rest from rfl]
    rw [matchedOf_append, List.length_append]
    rw [matched_pruneWalk safe file_type (root ++ [name]) tree h1]
    rw [matched_pruneWalkDirs safe file_type root rest h2]
    rfl
end

/-- The message of a mutating call's outcome (`""` for success; only read
for failures). -/
def errMsgOf : Except String Unit → String
  | .ok _ => ""
  | .error e => e

/-- Exact behaviour of the per-file delete loop: every enumerated file
passing the re-check is attempted, in order; successes are counted, each
failure appends one error entry, and a failure never stops the loop. -/
theorem deleteLoop_spec (ctx : OsCtx) (mfs : MutFs) (files : List PathComps) :
    ∀ (dc : Nat) (errors : List (PathComps × String)) (trace : List MutOp),
    deleteLoop ctx mfs files dc errors trace =
      (dc + ((files.filter (safeFile ctx)).filter
          (fun f => (mfs.removeResult f).isOk)).length,
       errors ++ ((files.filter (safeFile ctx)).filter
          (fun f => !(mfs.removeResult f).isOk)).map
          (fun f => (f, errMsgOf (mfs.removeResult f))),
       trace ++ (files.filter (safeFile ctx)).map MutOp.remove) := by
  induction files with
  | nil =>
    intro dc errors trace
    simp [deleteLoop]
  | cons f rest ih =>
    intro dc errors trace
    have e1 : deleteLoop ctx mfs (f :: rest) dc errors trace =
        if !safeFile ctx f then
          deleteLoop ctx mfs rest dc errors trace
        else
          match mfs.removeResult f with
          | .ok _ =>
            deleteLoop ctx mfs rest (dc + 1) errors (trace ++ [.remove f])
          | .error e =>
            deleteLoop ctx mfs rest dc (errors ++ [(f, e)])
              (trace ++ [.remove f]) := rfl
    by_cases hsf : safeFile ctx f = true
    · rw [e1, if_neg (by simp [hsf])]
      cases hrem : mfs.removeResult f with
      | ok u =>
        show deleteLoop ctx mfs rest (dc + 1) errors (trace ++ [.remove f]) = _
        rw [ih]
        refine congrArg₂ Prod.mk ?_ (congrArg₂ Prod.mk ?_ ?_)
        · simp [List.filter_cons, hsf, hrem, Except.isOk, Except.toBool]
          omega
        · simp [List.filter_cons, hsf, hrem, Except.isOk, Except.toBool]
        · simp [List.filter_cons, hsf]
      | error e =>
        show deleteLoop ctx mfs rest dc (errors ++ [(f, e)]) (trace ++ [.remove f]) = _
        rw [ih]
        refine congrArg₂ Prod.mk ?_ (congrArg₂ Prod.mk ?_ ?_)
        · simp [List.filter_cons, hsf, hrem, Except.isOk, Except.toBool]
        · simp [List.filter_cons, hsf, hrem, errMsgOf, Except.isOk, Except.toBool]
        · simp [List.filter_cons, hsf]
    · have hsf' : safeFile ctx f = false := by
        revert hsf
        cases safeFile ctx f <;> simp
      rw [e1, if_pos (by simp [hsf']), ih dc errors trace]
      simp [List.filter_cons, hsf']

/-- Exact behaviour of the per-file move loop, with the same shape as
`deleteLoop_spec`. -/
theorem moveLoop_spec (ctx : OsCtx) (mfs : MutFs) (dest_dir : PathComps)
    (files : List PathComps) :
    ∀ (mc : Nat) (errors : List (PathComps × String)) (trace : List MutOp),
    moveLoop ctx mfs dest_dir files mc errors trace =
      (mc + ((files.filter (safeFile ctx)).filter
          (fun f => (mfs.moveResult f dest_dir).isOk)).length,
       errors ++ ((files.filter (safeFile ctx)).filter
          (fun f => !(mfs.moveResult f dest_dir).isOk)).map
          (fun f => (f, errMsgOf (mfs.moveResult f dest_dir))),
       trace ++ (files.filter (safeFile ctx)).map
          (fun f => MutOp.move f dest_dir)) := by
  induction files with
  | nil =>
    intro mc errors trace
    simp [moveLoop]
  | cons f rest ih =>
    intro mc errors trace
    have e1 : moveLoop ctx mfs dest_dir (f :: rest) mc errors trace =
        if !safeFile ctx f then
          moveLoop ctx mfs dest_dir rest mc errors trace
        else
          match mfs.moveResult f dest_dir with
          | .ok _ =>
            moveLoop ctx mfs dest_dir rest (mc + 1) errors
              (trace ++ [.move f dest_dir])
          | .error e =>
            moveLoop ctx mfs dest_dir rest mc (errors ++ [(f, e)])
              (trace ++ [.move f dest_dir]) := rfl
    by_cases hsf : safeFile ctx f = true
    · rw [e1, if_neg (by simp [hsf])]
      cases hrem : mfs.moveResult f dest_dir with
      | ok u =>
        show moveLoop ctx mfs dest_dir rest (mc + 1) errors
          (trace ++ [.move f dest_dir]) = _
        rw [ih]
        refine congrArg₂ Prod.mk ?_ (congrArg₂ Prod.mk ?_ ?_)
        · simp [List.filter_cons, hsf, hrem, Except.isOk, Except.toBool]
          omega
        · simp [List.filter_cons, hsf, hrem, Except.isOk, Except.toBool]
        · simp [List.filter_cons, hsf]
      | error e =>
        show moveLoop ctx mfs dest_dir rest mc (errors ++ [(f, e)])
          (trace ++ [.move f dest_dir]) = _
        rw [ih]
        refine congrArg₂ Prod.mk ?_ (congrArg₂ Prod.mk ?_ ?_)
        · simp [List.filter_cons, hsf, hrem, Except.isOk, Except.toBool]
        · simp [List.filter_cons, hsf, hrem, errMsgOf, Except.isOk, Except.toBool]
        · simp [List.filter_cons, hsf]
    · have hsf' : safeFile ctx f = false := by
        revert hsf
        cases safeFile ctx f <;> simp
      rw [e1, if_pos (by simp [hsf']), ih mc errors trace]
      simp [List.filter_cons, hsf']

/-! ## Concrete environments used in witnesses and counterexamples -/

/-- A symlink-free resolver: every absolute path is already canonical. -/
def idResolve (p : PathComps) : Py PathComps := Except.ok p

/-- Resolution of the denylist entries on a POSIX system whose working
directory is `/cwd`: the POSIX entries are already absolute and canonical,
while the Windows-formatted entries are relative one-component paths and
resolve under the working directory. -/
def posixExpand (d : String) : PathComps :=
  if d = "/bin" then ["bin"]
  else if d = "/usr" then ["usr"]
  else if d = "/etc" then ["etc"]
  else ["cwd", d]

/-- A POSIX environment with home `/home/u` and no symlinks. -/
def demoCtx : OsCtx := ⟨["home", "u"], idResolve, posixExpand⟩

/-- The same environment with the configured root widened to `/etc`: the
misconfigured-root situation the denylist defends against. -/
def wideCtx : OsCtx := ⟨["etc"], idResolve, posixExpand⟩

/-- The NUL character `"\x00"`. -/
def nulChar : Char := Char.ofNat 0

/-- The resolver of a real POSIX CPython runtime: `os.path.realpath` (hence
`Path.resolve`) raises `ValueError: embedded null byte` for any path one of
whose components contains a NUL byte, and this filesystem is otherwise
symlink-free. -/
def nulResolve (p : PathComps) : Py PathComps :=
  if p.any (fun comp => comp.data.any (fun ch => ch = nulChar)) then
    Except.error "ValueError: embedded null byte"
  else Except.ok p

/-- A POSIX environment with home `/home/u` on the NUL-raising runtime. -/
def nulCtx : OsCtx := ⟨["home", "u"], nulResolve, posixExpand⟩

/-! ## Claims -/

/-- C1: for every path `P`, if the Safety Gate allows it (`is_safe_path(P)`
returns `True`), then the canonical resolution of `P` (after symlink
resolution, i.e. the resolution the gate itself performs; home for
empty/absent input) is lexically equal to or nested under the configured
root, the user's home directory. -/
theorem C1_containment_invariant (ctx : OsCtx) (path_str : SafeInput)
    (h : is_safe_path ctx path_str = true) :
    ∃ resolved, gateResolution ctx path_str = Except.ok resolved ∧
      ctx.home.isPrefixOf resolved = true := by
  have hrefl : ctx.home.isPrefixOf ctx.home = true :=
    (isPrefixOf_true_iff ctx.home ctx.home).mpr (List.prefix_refl ctx.home)
  by_cases ht : path_str.truthy = true
  · unfold is_safe_path at h
    rw [ht] at h
    rw [if_neg (by simp)] at h
    cases hg : gateResolution ctx path_str with
    | error e =>
      rw [hg] at h
      simp at h
    | ok resolved =>
      rw [hg] at h
      have h2 : (if (!ctx.home.isPrefixOf resolved) = true then false
          else if (SYSTEM_DIRS.any fun sys_dir =>
              (lowerChars (render (ctx.expandResolve sys_dir))).isPrefixOf
                (lowerChars (render resolved))) = true then false
          else true) = true := h
      by_cases hp : ctx.home.isPrefixOf resolved = true
      · exact ⟨resolved, rfl, hp⟩
      · have hp' : ctx.home.isPrefixOf resolved = false := by
          revert hp
          cases ctx.home.isPrefixOf resolved <;> simp
        rw [hp'] at h2
        simp at h2
  · cases path_str with
    | absent => exact ⟨ctx.home, rfl, hrefl⟩
    | str isAbs comps =>
      have h1 : (isAbs || !comps.isEmpty) = false := by
        revert ht
        cases h2 : (SafeInput.str isAbs comps).truthy <;> simp_all [SafeInput.truthy]
      have ha : isAbs = false := by
        revert h1
        cases isAbs <;> simp
      have hc : comps = [] := by
        revert h1
        cases comps <;> simp
      subst ha hc
      exact ⟨ctx.home, rfl, hrefl⟩
    | path p => simp [SafeInput.truthy] at ht

/-- Witness for C1: in the demo environment the gate admits
`/home/u/Downloads`, whose resolution is indeed below home. -/
theorem C1_containment_invariant_witness :
    is_safe_path demoCtx (.path ["home", "u", "Downloads"]) = true ∧
    ∃ resolved,
      gateResolution demoCtx (.path ["home", "u", "Downloads"]) = Except.ok resolved ∧
      demoCtx.home.isPrefixOf resolved = true :=
  ⟨by decide,
   C1_containment_invariant demoCtx (.path ["home", "u", "Downloads"]) (by decide)⟩

/-- C2: for every truthy path argument whose gate resolution is equal to or
nested under a resolved entry of the fixed `SYSTEM_DIRS` denylist,
`is_safe_path` returns `False` — even when the path also lies under the
configured root (the denylist check wins over containment). -/
theorem C2_denylist_invariant (ctx : OsCtx) (path_str : SafeInput)
    (resolved : PathComps) (sys_dir : String)
    (htr : path_str.truthy = true)
    (hres : gateResolution ctx path_str = Except.ok resolved)
    (hmem : sys_dir ∈ SYSTEM_DIRS)
    (hnest : ctx.expandResolve sys_dir <+: resolved) :
    is_safe_path ctx path_str = false := by
  unfold is_safe_path
  rw [htr, if_neg (by simp), hres]
  show (if (!ctx.home.isPrefixOf resolved) = true then false
      else if (SYSTEM_DIRS.any fun sys_dir =>
          (lowerChars (render (ctx.expandResolve sys_dir))).isPrefixOf
            (lowerChars (render resolved))) = true then false
      else true) = false
  by_cases hp : ctx.home.isPrefixOf resolved = true
  · rw [hp]
    have hany : SYSTEM_DIRS.any (fun sys_dir =>
        (lowerChars (render (ctx.expandResolve sys_dir))).isPrefixOf
          (lowerChars (render resolved))) = true :=
      List.any_eq_true.mpr
        ⟨sys_dir, hmem, lower_render_of_nested _ _ hnest⟩
    rw [hany]
    simp
  · have hp' : ctx.home.isPrefixOf resolved = false := by
      revert hp
      cases ctx.home.isPrefixOf resolved <;> simp
    rw [hp']
    simp

/-- Witness for C2: with the root misconfigured to `/etc`, the path
`/etc/passwd` is under the root, yet the denylist still denies it. -/
theorem C2_denylist_invariant_witness :
    (SafeInput.path ["etc", "passwd"]).truthy = true ∧
    gateResolution wideCtx (.path ["etc", "passwd"]) = Except.ok ["etc", "passwd"] ∧
    "/etc" ∈ SYSTEM_DIRS ∧
    wideCtx.expandResolve "/etc" <+: ["etc", "passwd"] ∧
    wideCtx.home.isPrefixOf ["etc", "passwd"] = true ∧
    is_safe_path wideCtx (.path ["etc", "passwd"]) = false :=
  ⟨rfl, rfl, by decide, ⟨["passwd"], by decide⟩, by decide,
   C2_denylist_invariant wideCtx (.path ["etc", "passwd"]) ["etc", "passwd"]
     "/etc" rfl rfl (by decide) ⟨["passwd"], by decide⟩⟩

/-- C3 (code bug in `resolve_path`): the spec requires the Path Resolver
never to raise for any string input, but on the POSIX CPython runtime
`Path.resolve` raises `ValueError: embedded null byte` for a string
containing a NUL byte and `resolve_path` (lines 24-50) has no exception
handler, so the exception propagates out of `resolve_path("\x00")`.  Only
`is_safe_path` catches the exception, failing closed with `False`. -/
theorem C3_resolve_raises_on_nul :
    resolve_path nulCtx (.str false [String.mk [nulChar]]) =
      Except.error "ValueError: embedded null byte" ∧
    is_safe_path nulCtx (.str false [String.mk [nulChar]]) = false :=
  ⟨rfl, rfl⟩

/-- C6: `resolve_path` maps empty and absent input to the configured root
(the home directory) and maps every relative input to home joined with that
input; the definition factors only through home and the OS resolution of
the home-joined path, so the process working directory never enters. -/
theorem C6_resolve_relative_to_home (ctx : OsCtx) (name : String)
    (comps : List String) :
    resolve_path ctx .absent = Except.ok ctx.home ∧
    resolve_path ctx (.str false []) = Except.ok ctx.home ∧
    resolve_path ctx (.str false (name :: comps)) =
      ctx.resolveAbs (ctx.home ++ name :: comps) :=
  ⟨rfl, rfl, rfl⟩

/-- C9: for empty (`""`) or `None` input, `is_safe_path` returns `True`
immediately, in every environment whatsoever — even one where the would-be
resolution fails or lands outside home — so no containment or denylist
check is performed on the path the input would resolve to. -/
theorem C9_falsy_input_allowed (ctx : OsCtx) :
    is_safe_path ctx .absent = true ∧ is_safe_path ctx (.str false []) = true :=
  ⟨rfl, rfl⟩

/-- A trivial filesystem (everything exists, empty tree) for witnesses. -/
def unitFs : Fs := ⟨fun _ => true, fun _ => .node .nil []⟩

/-- A mutation oracle on which every OS call succeeds. -/
def okMut : MutFs :=
  ⟨fun _ => Except.ok (), fun _ _ => Except.ok (), fun _ => Except.ok ()⟩

/-- C4: for every source path whose resolution lies outside the configured
root, `delete_files` returns the path-unsafety error of line 203 and
performs zero filesystem mutation (an empty trace): the guard fires before
any mutating OS call.  `hidem` states that re-resolving the
already-resolved source is a no-op, as canonical paths resolve to
themselves. -/
theorem C4_delete_outside_root_rejected (ctx : OsCtx) (fs : Fs) (mfs : MutFs)
    (file_type : Option String) (source_path : PathInput) (src_dir : PathComps)
    (hres : resolve_path ctx source_path = Except.ok src_dir)
    (hidem : ctx.resolveAbs src_dir = Except.ok src_dir)
    (hout : ctx.home.isPrefixOf src_dir = false) :
    delete_files ctx fs mfs file_type source_path = (Except.ok .blocked, []) := by
  have hsafe : is_safe_path ctx (.path src_dir) = false := by
    unfold is_safe_path
    rw [show (SafeInput.path src_dir).truthy = true from rfl, if_neg (by simp)]
    rw [show gateResolution ctx (.path src_dir) = ctx.resolveAbs src_dir from rfl]
    rw [hidem]
    show (if (!ctx.home.isPrefixOf src_dir) = true then false
        else if (SYSTEM_DIRS.any fun sys_dir =>
            (lowerChars (render (ctx.expandResolve sys_dir))).isPrefixOf
              (lowerChars (render src_dir))) = true then false
        else true) = false
    rw [hout]
    simp
  simp [delete_files, hres, hsafe]

/-- Witness for C4: deleting under `/tmp/x` (outside home `/home/u`) is
rejected with no mutation. -/
theorem C4_delete_outside_root_rejected_witness :
    resolve_path demoCtx (.str true ["tmp", "x"]) = Except.ok ["tmp", "x"] ∧
    demoCtx.resolveAbs ["tmp", "x"] = Except.ok ["tmp", "x"] ∧
    demoCtx.home.isPrefixOf ["tmp", "x"] = false ∧
    delete_files demoCtx unitFs okMut Option.none (.str true ["tmp", "x"]) =
      (Except.ok .blocked, []) :=
  ⟨rfl, rfl, by decide,
   C4_delete_outside_root_rejected demoCtx unitFs okMut Option.none
     (.str true ["tmp", "x"]) ["tmp", "x"] rfl rfl (by decide)⟩

/-- C5: for every start directory whose tree is nowhere pruned and contains
more than `max_count = 50` matching files, `find_files` returns exactly 50
entries — not more — and does so as a normal result (`inr`), not an
error. -/
theorem C5_enumeration_cap (ctx : OsCtx) (fs : Fs) (file_type : Option String)
    (source_path : PathInput) (start_dir : PathComps)
    (hres : resolve_path ctx source_path = Except.ok start_dir)
    (hsafe : is_safe_path ctx source_path.toSafeInput = true ∨
      is_safe_path ctx (.path start_dir) = true)
    (hex : fs.pathExists start_dir = true)
    (hall : allSafeTree (fun root => is_safe_path ctx (.str true root)) start_dir
      (fs.walkTree start_dir) = true)
    (hcount : MAX_COUNT < treeMatchCount file_type (fs.walkTree start_dir)) :
    ∃ results, find_files ctx fs file_type source_path = Except.ok (.inr results) ∧
      results.length = MAX_COUNT := by
  refine ⟨_, find_files_walk ctx fs file_type source_path start_dir hres hsafe hex, ?_⟩
  rw [List.length_take]
  rw [matched_pruneWalk _ file_type start_dir _ hall]
  omega

/-- A flat directory with 51 distinct `.txt` files. -/
def capFiles : List String := (List.range 51).map (fun i => "f" ++ toString i ++ ".txt")

/-- The tree holding `capFiles`. -/
def capTree : DirTree := .node .nil capFiles

/-- The filesystem for the cap witness. -/
def capFs : Fs := ⟨fun _ => true, fun _ => capTree⟩

/-- Witness for C5: 51 matching files in `/home/u/d` yield exactly 50. -/
theorem C5_enumeration_cap_witness :
    resolve_path demoCtx (.str false ["d"]) = Except.ok ["home", "u", "d"] ∧
    is_safe_path demoCtx (PathInput.str false ["d"]).toSafeInput = true ∧
    capFs.pathExists ["home", "u", "d"] = true ∧
    allSafeTree (fun root => is_safe_path demoCtx (.str true root)) ["home", "u", "d"]
      (capFs.walkTree ["home", "u", "d"]) = true ∧
    MAX_COUNT < treeMatchCount Option.none (capFs.walkTree ["home", "u", "d"]) ∧
    ∃ results,
      find_files demoCtx capFs Option.none (.str false ["d"]) = Except.ok (.inr results) ∧
      results.length = MAX_COUNT :=
  ⟨rfl, by decide, rfl, by decide, by decide,
   C5_enumeration_cap demoCtx capFs Option.none (.str false ["d"]) ["home", "u", "d"]
     rfl (Or.inl (by decide)) rfl (by decide) (by decide)⟩

/-- All file paths a visited pair list encounters, matching or not. -/
def allFilesOf (pairs : List (PathComps × List String)) : List PathComps :=
  pairs.flatMap (fun rf => rf.2.map (fun name => rf.1 ++ [name]))

/-- With no (truthy) filter, every encountered file matches. -/
theorem matchedOf_no_filter (file_type : Option String)
    (hft : file_type = Option.none ∨ file_type = some "")
    (pairs : List (PathComps × List String)) :
    matchedOf file_type pairs = allFilesOf pairs := by
  have hall : ∀ name, matchFile file_type name = true := by
    intro name
    rcases hft with h | h <;> rw [h] <;> rfl
  rw [matchedOf, allFilesOf]
  congr 1
  funext rf
  rw [matchedNode, List.filter_eq_self.mpr (fun a _ => hall a)]

/-- C7: when a (truthy) extension filter is provided, every returned path
names a file whose name ends, case-insensitively, in a dot followed by the
filter, and no other path is returned; when no filter is provided (`None`
or the falsy `""`), the result is exactly the encountered files — in both
cases up to the `max_count` cap. -/
theorem C7_extension_filter_correct (ctx : OsCtx) (fs : Fs)
    (file_type : Option String) (source_path : PathInput) (start_dir : PathComps)
    (hres : resolve_path ctx source_path = Except.ok start_dir)
    (hsafe : is_safe_path ctx source_path.toSafeInput = true ∨
      is_safe_path ctx (.path start_dir) = true)
    (hex : fs.pathExists start_dir = true) :
    ∃ results,
      find_files ctx fs file_type source_path = Except.ok (.inr results) ∧
      (∀ ext, file_type = some ext → ext ≠ "" → ∀ p ∈ results,
        ∃ dir name, p = dir ++ [name] ∧
          ('.' :: lowerChars ext.data).isSuffixOf (lowerChars name.data) = true) ∧
      ((file_type = Option.none ∨ file_type = some "") →
        results = (allFilesOf (pruneWalk
          (fun root => is_safe_path ctx (.str true root)) start_dir
          (fs.walkTree start_dir))).take MAX_COUNT) := by
  refine ⟨_, find_files_walk ctx fs file_type source_path start_dir hres hsafe hex,
    ?_, ?_⟩
  · intro ext hft hne p hp
    have hp1 : p ∈ matchedOf file_type (pruneWalk
        (fun root => is_safe_path ctx (.str true root)) start_dir
        (fs.walkTree start_dir)) := List.take_subset _ _ hp
    rw [matchedOf, List.mem_flatMap] at hp1
    obtain ⟨rf, hrf, hpn⟩ := hp1
    rw [matchedNode, List.mem_map] at hpn
    obtain ⟨name, hname, hpeq⟩ := hpn
    have hmatch : matchFile file_type name = true := (List.mem_filter.mp hname).2
    rw [hft] at hmatch
    rw [show matchFile (some ext) name =
      (if ext = "" then true
       else ('.' :: lowerChars ext.data).isSuffixOf (lowerChars name.data)) from rfl,
      if_neg hne] at hmatch
    exact ⟨rf.1, name, hpeq.symm, hmatch⟩
  · intro hnone
    rw [matchedOf_no_filter file_type hnone]

/-- A flat directory with mixed extensions. -/
def extTree : DirTree := .node .nil ["a.PDF", "b.txt", "c.pdf", "d.pdfx"]

/-- The filesystem for the extension-filter witness. -/
def extFs : Fs := ⟨fun _ => true, fun _ => extTree⟩

/-- Witness for C7: filtering `/home/u/d` by `"pdf"`. -/
theorem C7_extension_filter_correct_witness :
    resolve_path demoCtx (.str false ["d"]) = Except.ok ["home", "u", "d"] ∧
    extFs.pathExists ["home", "u", "d"] = true ∧
    ∃ results,
      find_files demoCtx extFs (some "pdf") (.str false ["d"]) = Except.ok (.inr results) ∧
      (∀ ext, (some "pdf" : Option String) = some ext → ext ≠ "" → ∀ p ∈ results,
        ∃ dir name, p = dir ++ [name] ∧
          ('.' :: lowerChars ext.data).isSuffixOf (lowerChars name.data) = true) ∧
      (((some "pdf" : Option String) = Option.none ∨ (some "pdf" : Option String) = some "") →
        results = (allFilesOf (pruneWalk
          (fun root => is_safe_path demoCtx (.str true root)) ["home", "u", "d"]
          (extFs.walkTree ["home", "u", "d"]))).take MAX_COUNT) :=
  ⟨rfl, rfl,
   C7_extension_filter_correct demoCtx extFs (some "pdf") (.str false ["d"])
     ["home", "u", "d"] rfl (Or.inl (by decide)) rfl⟩

/-- C8: in a batch delete or move over the enumerated files, a failure on
one file never aborts the operation on the remaining files — every
enumerated file passing the per-file re-check is attempted, in order,
whatever the outcomes of earlier attempts — and the returned message
reports the count of succeeded items and the count of failed items, which
together account for every re-checked file. -/
theorem C8_batch_failure_accounting :
    (∀ (ctx : OsCtx) (fs : Fs) (mfs : MutFs) (file_type : Option String)
        (source_path : PathInput) (src_dir : PathComps) (files : List PathComps),
      resolve_path ctx source_path = Except.ok src_dir →
      is_safe_path ctx (.path src_dir) = true →
      find_files ctx fs file_type source_path = Except.ok (.inr files) →
      delete_files ctx fs mfs file_type source_path =
        (Except.ok (.done
            ((files.filter (safeFile ctx)).filter
              (fun f => (mfs.removeResult f).isOk)).length
            ((files.filter (safeFile ctx)).filter
              (fun f => !(mfs.removeResult f).isOk)).length
            src_dir),
         (files.filter (safeFile ctx)).map MutOp.remove) ∧
      ((files.filter (safeFile ctx)).filter
          (fun f => (mfs.removeResult f).isOk)).length +
        ((files.filter (safeFile ctx)).filter
          (fun f => !(mfs.removeResult f).isOk)).length =
        (files.filter (safeFile ctx)).length) ∧
    (∀ (ctx : OsCtx) (fs : Fs) (mfs : MutFs) (file_type : Option String)
        (destination_path source_path : PathInput) (src_dir dest_dir : PathComps)
        (files : List PathComps),
      destination_path.truthy = true →
      resolve_path ctx source_path = Except.ok src_dir →
      resolve_path ctx destination_path = Except.ok dest_dir →
      is_safe_path ctx (.path src_dir) = true →
      is_safe_path ctx (.path dest_dir) = true →
      fs.pathExists dest_dir = true →
      find_files ctx fs file_type source_path = Except.ok (.inr files) →
      move_files ctx fs mfs file_type destination_path source_path =
        (Except.ok (.done
            ((files.filter (safeFile ctx)).filter
              (fun f => (mfs.moveResult f dest_dir).isOk)).length
            ((files.filter (safeFile ctx)).filter
              (fun f => !(mfs.moveResult f dest_dir).isOk)).length
            dest_dir),
         (files.filter (safeFile ctx)).map (fun f => MutOp.move f dest_dir)) ∧
      ((files.filter (safeFile ctx)).filter
          (fun f => (mfs.moveResult f dest_dir).isOk)).length +
        ((files.filter (safeFile ctx)).filter
          (fun f => !(mfs.moveResult f dest_dir).isOk)).length =
        (files.filter (safeFile ctx)).length) := by
  constructor
  · intro ctx fs mfs file_type source_path src_dir files hres hsafe hfind
    constructor
    · have hloop := deleteLoop_spec ctx mfs files 0 [] []
      simp only [List.nil_append, Nat.zero_add] at hloop
      simp [delete_files, hres, hsafe, hfind, hloop]
    · exact length_filter_add_length_not _ _
  · intro ctx fs mfs file_type destination_path source_path src_dir dest_dir files
      htr hres hdres hsafe hdsafe hdex hfind
    constructor
    · have hloop := moveLoop_spec ctx mfs dest_dir files 0 [] []
      simp only [List.nil_append, Nat.zero_add] at hloop
      simp [move_files, htr, hres, hdres, hsafe, hdsafe, hdex, hfind, hloop]
    · exact length_filter_add_length_not _ _

/-- A flat directory with two files to batch-process. -/
def batchTree : DirTree := .node .nil ["a.txt", "b.txt"]

/-- The filesystem for the batch witnesses. -/
def batchFs : Fs := ⟨fun _ => true, fun _ => batchTree⟩

/-- A mutation oracle on which operating on `/home/u/d/a.txt` fails and
everything else succeeds. -/
def batchMut : MutFs :=
  ⟨fun f => if f = ["home", "u", "d", "a.txt"] then Except.error "Permission denied"
            else Except.ok (),
   fun f _ => if f = ["home", "u", "d", "a.txt"] then Except.error "Permission denied"
              else Except.ok (),
   fun _ => Except.ok ()⟩

/-- Witness for C8: of two enumerated files one fails; both are attempted
and the result reports one success and one failure, for delete and for
move. -/
theorem C8_batch_failure_accounting_witness :
    find_files demoCtx batchFs Option.none (.str false ["d"]) =
      Except.ok (.inr [["home", "u", "d", "a.txt"], ["home", "u", "d", "b.txt"]]) ∧
    delete_files demoCtx batchFs batchMut Option.none (.str false ["d"]) =
      (Except.ok (.done 1 1 ["home", "u", "d"]),
       [MutOp.remove ["home", "u", "d", "a.txt"],
        MutOp.remove ["home", "u", "d", "b.txt"]]) ∧
    move_files demoCtx batchFs batchMut Option.none (.str false ["dest"]) (.str false ["d"]) =
      (Except.ok (.done 1 1 ["home", "u", "dest"]),
       [MutOp.move ["home", "u", "d", "a.txt"] ["home", "u", "dest"],
        MutOp.move ["home", "u", "d", "b.txt"] ["home", "u", "dest"]]) := by
  refine ⟨rfl, ?_, ?_⟩
  · exact (C8_batch_failure_accounting.1 demoCtx batchFs batchMut Option.none
      (.str false ["d"]) ["home", "u", "d"]
      [["home", "u", "d", "a.txt"], ["home", "u", "d", "b.txt"]]
      rfl (by decide) rfl).1.trans rfl
  · exact (C8_batch_failure_accounting.2 demoCtx batchFs batchMut Option.none
      (.str false ["dest"]) (.str false ["d"]) ["home", "u", "d"] ["home", "u", "dest"]
      [["home", "u", "d", "a.txt"], ["home", "u", "d", "b.txt"]]
      rfl rfl rfl (by decide) (by decide) rfl rfl).1.trans rfl

/-- C10: in a batch delete or move, an enumerated file that fails the
per-file safety re-check is silently skipped: it is outside the re-checked
set, no mutation for it is ever attempted, and the reported succeeded and
failed counts together cover exactly the re-checked set, which excludes
it. -/
theorem C10_failed_recheck_silently_skipped :
    (∀ (ctx : OsCtx) (fs : Fs) (mfs : MutFs) (file_type : Option String)
        (source_path : PathInput) (src_dir : PathComps) (files : List PathComps)
        (x : PathComps),
      resolve_path ctx source_path = Except.ok src_dir →
      is_safe_path ctx (.path src_dir) = true →
      find_files ctx fs file_type source_path = Except.ok (.inr files) →
      x ∈ files → safeFile ctx x = false →
      x ∉ files.filter (safeFile ctx) ∧
      MutOp.remove x ∉ (delete_files ctx fs mfs file_type source_path).2 ∧
      (delete_files ctx fs mfs file_type source_path).1 =
        Except.ok (.done
          ((files.filter (safeFile ctx)).filter
            (fun f => (mfs.removeResult f).isOk)).length
          ((files.filter (safeFile ctx)).filter
            (fun f => !(mfs.removeResult f).isOk)).length
          src_dir) ∧
      ((files.filter (safeFile ctx)).filter
          (fun f => (mfs.removeResult f).isOk)).length +
        ((files.filter (safeFile ctx)).filter
          (fun f => !(mfs.removeResult f).isOk)).length =
        (files.filter (safeFile ctx)).length) ∧
    (∀ (ctx : OsCtx) (fs : Fs) (mfs : MutFs) (file_type : Option String)
        (destination_path source_path : PathInput) (src_dir dest_dir : PathComps)
        (files : List PathComps) (x : PathComps),
      destination_path.truthy = true →
      resolve_path ctx source_path = Except.ok src_dir →
      resolve_path ctx destination_path = Except.ok dest_dir →
      is_safe_path ctx (.path src_dir) = true →
      is_safe_path ctx (.path dest_dir) = true →
      fs.pathExists dest_dir = true →
      find_files ctx fs file_type source_path = Except.ok (.inr files) →
      x ∈ files → safeFile ctx x = false →
      x ∉ files.filter (safeFile ctx) ∧
      MutOp.move x dest_dir ∉ (move_files ctx fs mfs file_type destination_path source_path).2 ∧
      (move_files ctx fs mfs file_type destination_path source_path).1 =
        Except.ok (.done
          ((files.filter (safeFile ctx)).filter
            (fun f => (mfs.moveResult f dest_dir).isOk)).length
          ((files.filter (safeFile ctx)).filter
            (fun f => !(mfs.moveResult f dest_dir).isOk)).length
          dest_dir) ∧
      ((files.filter (safeFile ctx)).filter
          (fun f => (mfs.moveResult f dest_dir).isOk)).length +
        ((files.filter (safeFile ctx)).filter
          (fun f => !(mfs.moveResult f dest_dir).isOk)).length =
        (files.filter (safeFile ctx)).length) := by
  constructor
  · intro ctx fs mfs file_type source_path src_dir files x hres hsafe hfind hx hxs
    have hnot : x ∉ files.filter (safeFile ctx) := by
      intro hmem
      have := (List.mem_filter.mp hmem).2
      rw [hxs] at this
      exact Bool.false_ne_true this
    have hloop := deleteLoop_spec ctx mfs files 0 [] []
    simp only [List.nil_append, Nat.zero_add] at hloop
    have hdel : delete_files ctx fs mfs file_type source_path =
        (Except.ok (.done
            ((files.filter (safeFile ctx)).filter
              (fun f => (mfs.removeResult f).isOk)).length
            ((files.filter (safeFile ctx)).filter
              (fun f => !(mfs.removeResult f).isOk)).length
            src_dir),
         (files.filter (safeFile ctx)).map MutOp.remove) := by
      simp [delete_files, hres, hsafe, hfind, hloop]
    refine ⟨hnot, ?_, ?_, length_filter_add_length_not _ _⟩
    · rw [hdel]
      intro hmem
      obtain ⟨a, ha, hae⟩ := List.mem_map.mp hmem
      have : a = x := by
        injection hae
      exact hnot (this ▸ ha)
    · rw [hdel]
  · intro ctx fs mfs file_type destination_path source_path src_dir dest_dir files x
      htr hres hdres hsafe hdsafe hdex hfind hx hxs
    have hnot : x ∉ files.filter (safeFile ctx) := by
      intro hmem
      have := (List.mem_filter.mp hmem).2
      rw [hxs] at this
      exact Bool.false_ne_true this
    have hloop := moveLoop_spec ctx mfs dest_dir files 0 [] []
    simp only [List.nil_append, Nat.zero_add] at hloop
    have hmov : move_files ctx fs mfs file_type destination_path source_path =
        (Except.ok (.done
            ((files.filter (safeFile ctx)).filter
              (fun f => (mfs.moveResult f dest_dir).isOk)).length
            ((files.filter (safeFile ctx)).filter
              (fun f => !(mfs.moveResult f dest_dir).isOk)).length
            dest_dir),
         (files.filter (safeFile ctx)).map (fun f => MutOp.move f dest_dir)) := by
      simp [move_files, htr, hres, hdres, hsafe, hdsafe, hdex, hfind, hloop]
    refine ⟨hnot, ?_, ?_, length_filter_add_length_not _ _⟩
    · rw [hmov]
      intro hmem
      obtain ⟨a, ha, hae⟩ := List.mem_map.mp hmem
      have : a = x := by
        injection hae
      exact hnot (this ▸ ha)
    · rw [hmov]

/-- A resolver on which `/home/u/d/link.txt` is a symlink whose target is
`/etc/target`; every other path is canonical. -/
def linkResolve (p : PathComps) : Py PathComps :=
  if p = ["home", "u", "d", "link.txt"] then Except.ok ["etc", "target"]
  else Except.ok p

/-- A POSIX environment containing the escaped symlink. -/
def linkCtx : OsCtx := ⟨["home", "u"], linkResolve, posixExpand⟩

/-- The directory containing the escaped symlink next to a regular file. -/
def linkTree : DirTree := .node .nil ["link.txt", "b.txt"]

/-- The filesystem for the re-check witness. -/
def linkFs : Fs := ⟨fun _ => true, fun _ => linkTree⟩

/-- Witness for C10: the enumerated escaped symlink `/home/u/d/link.txt` is
skipped by delete and by move — unattempted and uncounted — while
`/home/u/d/b.txt` is processed. -/
theorem C10_failed_recheck_silently_skipped_witness :
    (["home", "u", "d", "link.txt"] ∉
        ([["home", "u", "d", "link.txt"], ["home", "u", "d", "b.txt"]] :
          List PathComps).filter (safeFile linkCtx) ∧
      MutOp.remove ["home", "u", "d", "link.txt"] ∉
        (delete_files linkCtx linkFs okMut Option.none (.str false ["d"])).2 ∧
      (delete_files linkCtx linkFs okMut Option.none (.str false ["d"])).1 =
        Except.ok (.done
          ((([["home", "u", "d", "link.txt"], ["home", "u", "d", "b.txt"]] :
              List PathComps).filter (safeFile linkCtx)).filter
            (fun f => (okMut.removeResult f).isOk)).length
          ((([["home", "u", "d", "link.txt"], ["home", "u", "d", "b.txt"]] :
              List PathComps).filter (safeFile linkCtx)).filter
            (fun f => !(okMut.removeResult f).isOk)).length
          ["home", "u", "d"]) ∧
      ((([["home", "u", "d", "link.txt"], ["home", "u", "d", "b.txt"]] :
          List PathComps).filter (safeFile linkCtx)).filter
        (fun f => (okMut.removeResult f).isOk)).length +
        ((([["home", "u", "d", "link.txt"], ["home", "u", "d", "b.txt"]] :
            List PathComps).filter (safeFile linkCtx)).filter
          (fun f => !(okMut.removeResult f).isOk)).length =
        (([["home", "u", "d", "link.txt"], ["home", "u", "d", "b.txt"]] :
          List PathComps).filter (safeFile linkCtx)).length) ∧
    MutOp.move ["home", "u", "d", "link.txt"] ["home", "u", "dest"] ∉
      (move_files linkCtx linkFs okMut Option.none (.str false ["dest"])
        (.str false ["d"])).2 :=
  ⟨C10_failed_recheck_silently_skipped.1 linkCtx linkFs okMut Option.none
     (.str false ["d"]) ["home", "u", "d"]
     [["home", "u", "d", "link.txt"], ["home", "u", "d", "b.txt"]]
     ["home", "u", "d", "link.txt"] rfl (by decide) rfl (by decide) (by decide),
   (C10_failed_recheck_silently_skipped.2 linkCtx linkFs okMut Option.none
     (.str false ["dest"]) (.str false ["d"]) ["home", "u", "d"] ["home", "u", "dest"]
     [["home", "u", "d", "link.txt"], ["home", "u", "d", "b.txt"]]
     ["home", "u", "d", "link.txt"] rfl rfl rfl (by decide) (by decide) rfl rfl
     (by decide) (by decide)).2.1⟩
